import Mathlib

/-!
Verification of the CSV parsing and record-reconciliation core of the
XC_Template static-site generator.  The sources embedded here are
src/home_builder.py, src/meets/meet_builder.py,
src/meets/csv_to_race_page_html.py and src/mens_team/athlete_builder.py.
Python strings are modelled as Lean String (ASCII data), Python float
results of the time parser as Rat, Python dicts built by dict(zip(..))
as association lists with last-key-wins lookup, and Python list.sort /
sorted (stable) as List.insertionSort with a non-strict key comparison.
-/

namespace XC

/-! ## Python string primitives -/

/-- Model of Python str.strip(): drop leading and trailing whitespace. -/
def trimList (l : List Char) : List Char :=
  ((l.dropWhile Char.isWhitespace).reverse.dropWhile Char.isWhitespace).reverse

/-- Model of Python str.strip() on strings. -/
def pyStrip (s : String) : String := String.mk (trimList s.toList)

/-- Model of Python str.isdigit() for ASCII data: nonempty and all digits. -/
def pyIsDigit (s : String) : Bool := !s.toList.isEmpty && s.toList.all (·.isDigit)

/-- Value of a digit string, as computed by Python int() on an all-digit string. -/
def pyToNat (s : String) : Nat := s.toList.foldl (fun n c => 10 * n + (c.toNat - 48)) 0

/-- Model of Python str.rstrip("."): drop every trailing dot. -/
def rstripDots (s : String) : String :=
  String.mk ((s.toList.reverse.dropWhile (fun c => c = '.')).reverse)

/-- Model of Python str.lower() for ASCII data. -/
def pyLower (s : String) : String := String.mk (s.toList.map Char.toLower)

/-- Does the char list start with the given pattern. -/
def startsWithChars : List Char → List Char → Bool
  | [], _ => true
  | _ :: _, [] => false
  | p :: ps, c :: cs => p = c && startsWithChars ps cs

/-- Substring occurrence test on char lists. -/
def containsSub (pat : List Char) : List Char → Bool
  | [] => pat.isEmpty
  | c :: rest => startsWithChars pat (c :: rest) || containsSub pat rest

/-- Model of the Python substring test (pat in s). -/
def pyContains (s pat : String) : Bool := containsSub pat.toList s.toList

/-- Split a char list at every occurrence of the separator, keeping empty
segments, as Python str.split(sep) does. -/
def splitOnChar (sep : Char) : List Char → List (List Char)
  | [] => [[]]
  | c :: rest =>
    let r := splitOnChar sep rest
    if c = sep then [] :: r
    else (c :: r.headD []) :: r.tail

/-! ## ordinal: three variants present in the source

home_builder.ordinal and meet_builder.ordinal share one body (empty-string
guard, teen window 10..20, non-digit input returned unchanged);
athlete_builder.ordinal returns the stripped input on non-digit data;
csv_to_race_page_html.ordinal has no empty guard, returns the cleaned
string on non-digit data, and uses the teen window 11..13. -/

/-- Suffix by last digit, as the dict lookup with default "th" in the source. -/
def digitSuffix (d : Nat) : String :=
  if d = 1 then "st" else if d = 2 then "nd" else if d = 3 then "rd" else "th"

/-- Suffix rule of home_builder / meet_builder / athlete_builder: teens are 10..20 mod 100. -/
def suffix1020 (n : Nat) : String :=
  if 10 ≤ n % 100 ∧ n % 100 ≤ 20 then "th" else digitSuffix (n % 10)

/-- Suffix rule of csv_to_race_page_html: teens are 11..13 mod 100. -/
def suffix1113 (n : Nat) : String :=
  if 11 ≤ n % 100 ∧ n % 100 ≤ 13 then "th" else digitSuffix (n % 10)

/-- Embedding of ordinal from src/home_builder.py lines 40-54 (the body of
meet_builder.ordinal, lines 38-52, is identical). -/
def ordinal (place_str : String) : String :=
  if place_str = "" then ""
  else
    let s := rstripDots (pyStrip place_str)
    if pyIsDigit s = false then place_str
    else Nat.repr (pyToNat s) ++ suffix1020 (pyToNat s)

/-- Embedding of ordinal from src/mens_team/athlete_builder.py lines 44-56.
The place_str-is-None guard of the source is outside the String model. -/
def ordinal_athlete (place_str : String) : String :=
  let s := rstripDots (pyStrip place_str)
  if pyIsDigit s = false then pyStrip place_str
  else Nat.repr (pyToNat s) ++ suffix1020 (pyToNat s)

/-- Embedding of ordinal from src/meets/csv_to_race_page_html.py lines 31-41. -/
def ordinal_custom (place : String) : String :=
  let p := rstripDots (pyStrip place)
  if pyIsDigit p = false then p
  else Nat.repr (pyToNat p) ++ suffix1113 (pyToNat p)

/-! ## parse_time_to_seconds (athlete_builder lines 59-81) -/

/-- Does the char belong to the first letter of a PR or SR annotation token. -/
def isPS (c : Char) : Bool := c == 'P' || c == 'p' || c == 'S' || c == 's'

/-- Is the char an upper or lower case R. -/
def isR (c : Char) : Bool := c == 'R' || c == 'r'

/-- Embedding of re.sub on the pattern (PR or star or SR), case-insensitive,
replacing every leftmost non-overlapping match by the empty string. -/
def stripAnn : List Char → List Char
  | [] => []
  | [c] => if c == '*' then [] else [c]
  | c :: c2 :: rest =>
    if c == '*' then stripAnn (c2 :: rest)
    else if isPS c && isR c2 then stripAnn rest
    else c :: stripAnn (c2 :: rest)

/-- Is the char kept by re.sub deleting everything but digits, colon, dot. -/
def isTimeChar (c : Char) : Bool := c.isDigit || c == ':' || c == '.'

/-- Embedding of the keep-only-digits-colon-dot substitution. -/
def keepTimeChars (l : List Char) : List Char := l.filter isTimeChar

/-- Are all chars of the list digits. -/
def digitsOnly (l : List Char) : Bool := l.all (·.isDigit)

/-- Value of a digit char list, as Python int() computes it. -/
def natOfDigits (l : List Char) : Nat := l.foldl (fun n c => 10 * n + (c.toNat - 48)) 0

/-- Model of Python int() restricted to the post-filter alphabet (digits and
dots): it succeeds exactly on nonempty all-digit strings. -/
def pyIntOpt (m : List Char) : Option Nat :=
  if !m.isEmpty && digitsOnly m then some (natOfDigits m) else none

/-- Model of Python float() restricted to the post-filter alphabet (digits and
dots): an optional integer part, an optional single dot, an optional fraction,
with at least one digit overall. -/
def pyFloatOpt (l : List Char) : Option ℚ :=
  match splitOnChar '.' l with
  | [a] => if !a.isEmpty && digitsOnly a then some ((natOfDigits a : ℚ)) else none
  | [a, b] =>
    if (digitsOnly a && digitsOnly b) && !(a.isEmpty && b.isEmpty)
    then some ((natOfDigits a : ℚ) + (natOfDigits b : ℚ) / (10 : ℚ) ^ b.length)
    else none
  | _ => none

/-- The colon-splitting and numeric tail of parse_time_to_seconds lines
71-81: demand exactly two colon-separated parts, an integer minutes part
and a float seconds part, and deliver minutes*60 + seconds. -/
def pts_core (s : String) : Option ℚ :=
  if pyContains s ":" = false then none
  else
    match splitOnChar ':' s.toList with
    | [m, sec] =>
      match pyIntOpt m, pyFloatOpt sec with
      | some mi, some se => some ((mi : ℚ) * 60 + se)
      | _, _ => none
    | _ => none

/-- Embedding of parse_time_to_seconds from athlete_builder lines 59-81:
falsy-input guard, strip, annotation removal, strip, character filter,
then the colon split. -/
def parse_time_to_seconds (t : String) : Option ℚ :=
  if t = "" then none
  else pts_core (String.mk (keepTimeChars (trimList (stripAnn (trimList t.toList)))))

/-- Claim-side colon-splitting tail, with no redundant containment check. -/
def tts_core (s : String) : Option ℚ :=
  match splitOnChar ':' s.toList with
  | [m, sec] =>
    match pyIntOpt m, pyFloatOpt sec with
    | some mi, some se => some ((mi : ℚ) * 60 + se)
    | _, _ => none
  | _ => none

/-- Claim-side restatement of timeToSeconds, written from the words of the
spec: remove the annotation tokens, discard every character that is not a
digit, colon or period, require exactly two colon-separated parts with an
integer minutes part and a possibly fractional seconds part, and return
minutes*60 + seconds. -/
def timeToSeconds_claim (t : String) : Option ℚ :=
  tts_core (String.mk (keepTimeChars (stripAnn t.toList)))

/-! ## CSV primitives shared by the meet parsers -/

/-- State-machine splitter for one CSV line in the default dialect of
Python csv.reader: comma-separated fields, a double quote toggles quoted
mode, a doubled quote inside quotes is a literal quote.  The accumulator
holds the current field reversed. -/
def csvSplitAux : Nat → List Char → Bool → List Char → List String
  | 0, l, _, cur => [String.mk (cur.reverse ++ l)]
  | _ + 1, [], _, cur => [String.mk cur.reverse]
  | fuel + 1, c :: rest, true, cur =>
    if c = '"' then
      match rest with
      | '"' :: r2 => csvSplitAux fuel r2 true ('"' :: cur)
      | r => csvSplitAux fuel r false cur
    else csvSplitAux fuel rest true (c :: cur)
  | fuel + 1, c :: rest, false, cur =>
    if c = ',' then String.mk cur.reverse :: csvSplitAux fuel rest false []
    else if c = '"' then csvSplitAux fuel rest true cur
    else csvSplitAux fuel rest false (c :: cur)

/-- Split one physical line into CSV cells; csv.reader yields no row for an
empty line.  The fuel argument, one unit per consumed char, only renders
the recursion structural; it never runs out on its initial value. -/
def splitCsvLine (s : String) : List String :=
  if s = "" then [] else csvSplitAux s.toList.length s.toList false []

/-- Is the row blank in the sense used throughout the source: no cell with
nonempty stripped content.  List.all of an empty row is true. -/
def rowBlank (row : List String) : Bool := row.all (fun c => pyStrip c = "")

/-- Embedding of parse_csv_block from meet_builder lines 68-74 (identical in
home_builder): split each line, keep rows having some nonblank cell. -/
def parse_csv_block (ls : List String) : List (List String) :=
  (ls.map splitCsvLine).filter (fun r => !rowBlank r)

/-- Right-pad a short data row with empty strings to the header length, as in
meet_builder lines 132-134 and athlete_builder lines 136-138. -/
def padRow (header row : List String) : List String :=
  if row.length < header.length
  then row ++ List.replicate (header.length - row.length) ""
  else row

/-- Field mapping dict(zip(header, paddedRow)), kept as an association list.
Python dict construction lets a later duplicate key overwrite an earlier
one, so lookup scans from the right. -/
def mkDictRow (header row : List String) : List (String × String) :=
  List.zip header (padRow header row)

/-- A field-mapping row. -/
abbrev DRow := List (String × String)

/-- Model of dict.get(key, default) with last-duplicate-wins semantics,
composed with the str(v)-and-None guard of safe_get (values here are
always strings, so only the missing-key default matters).  Embeds safe_get
from meet_builder lines 77-79, home_builder lines 88-90 and
athlete_builder lines 98-100. -/
def safe_get (d : DRow) (key dflt : String) : String :=
  match d.reverse.find? (fun p => p.1 = key) with
  | some p => p.2
  | none => dflt

/-! ## HTML plain-texting helpers -/

/-- Model of the fragment of Python html.unescape exercised here: the five
XML entities.  The stdlib function also knows the full HTML5 entity table,
which no theorem below depends on. -/
def pyUnescape : List Char → List Char
  | '&' :: 'a' :: 'm' :: 'p' :: ';' :: rest => '&' :: pyUnescape rest
  | '&' :: 'l' :: 't' :: ';' :: rest => '<' :: pyUnescape rest
  | '&' :: 'g' :: 't' :: ';' :: rest => '>' :: pyUnescape rest
  | '&' :: 'q' :: 'u' :: 'o' :: 't' :: ';' :: rest => '"' :: pyUnescape rest
  | '&' :: '#' :: '3' :: '9' :: ';' :: rest => '\'' :: pyUnescape rest
  | c :: rest => c :: pyUnescape rest
  | [] => []

/-- After an opening angle bracket, find the matching close of the regex
piece matching one-or-more non-gt chars then gt: the tail after the first
gt, provided at least one other char comes before it. -/
def dropToGt : List Char → Option (List Char)
  | [] => none
  | c :: cs => if c = '>' then some cs else dropToGt cs

/-- Match the tag-interior part of the regex: one-or-more non-gt chars then
gt; returns the remainder after the gt. -/
def findTagEnd (l : List Char) : Option (List Char) :=
  match l with
  | [] => none
  | c :: cs => if c = '>' then none else dropToGt cs

/-- Fuel-driven embedding of re.sub removing every match of lt,
one-or-more non-gt chars, gt (the tag-stripping regex of strip_html and
strip_html_tags).  One unit of fuel per consumed char keeps the recursion
structural; on the initial fuel of removeTags the zero-fuel arm is never
reached, because every step consumes at least one input char. -/
def removeTagsF : Nat → List Char → List Char
  | 0, l => l
  | _ + 1, [] => []
  | fuel + 1, c :: rest =>
    if c = '<' then
      match findTagEnd rest with
      | some rest2 => removeTagsF fuel rest2
      | none => c :: removeTagsF fuel rest
    else c :: removeTagsF fuel rest

/-- The tag-stripping substitution. -/
def removeTags (l : List Char) : List Char := removeTagsF l.length l

/-- Fuel-driven whitespace tokenizer of a char list, as Python str.split()
with no argument: maximal nonempty runs of non-whitespace. -/
def wsTokensF : Nat → List Char → List (List Char)
  | 0, _ => []
  | _ + 1, [] => []
  | fuel + 1, c :: rest =>
    if c.isWhitespace then wsTokensF fuel rest
    else (c :: rest.takeWhile (fun x => !x.isWhitespace)) ::
      wsTokensF fuel (rest.dropWhile (fun x => !x.isWhitespace))

/-- The whitespace tokens of a char list. -/
def wsTokens (l : List Char) : List (List Char) := wsTokensF l.length l

/-- Embedding of strip_html from home_builder lines 31-37 (identical in
meet_builder lines 29-35): entity-unescape, strip tags, collapse all
whitespace runs to single spaces. -/
def strip_html (text : String) : String :=
  if text = "" then ""
  else
    let t1 := pyUnescape text.toList
    let t2 := removeTags t1
    pyStrip (String.intercalate " " ((wsTokens t2).map String.mk))

/-- Match, after an opening angle bracket, the rest of the br-tag regex:
optional whitespace, b or B, r or R, optional whitespace, optional slash,
then gt.  Returns the remainder after the gt. -/
def matchBrAfterLt (l : List Char) : Option (List Char) :=
  match l.dropWhile Char.isWhitespace with
  | b :: r :: rest =>
    if (b = 'b' ∨ b = 'B') ∧ (r = 'r' ∨ r = 'R') then
      match rest.dropWhile Char.isWhitespace with
      | '/' :: '>' :: rest2 => some rest2
      | '>' :: rest2 => some rest2
      | _ => none
    else none
  | _ => none

/-- Fuel-driven embedding of re.sub replacing every case-insensitive br tag
(lt, optional whitespace, b, r, optional whitespace, optional slash, gt)
by a newline, from strip_html_tags line 20.  One unit of fuel per consumed
char keeps the recursion structural; on the initial fuel of brToNewline
the zero-fuel arm is never reached, because every step consumes at least
one input char. -/
def brToNewlineF : Nat → List Char → List Char
  | 0, l => l
  | _ + 1, [] => []
  | fuel + 1, c :: rest =>
    if c = '<' then
      match matchBrAfterLt rest with
      | some r2 => '\n' :: brToNewlineF fuel r2
      | none => c :: brToNewlineF fuel rest
    else c :: brToNewlineF fuel rest

/-- The br-tag-to-newline substitution. -/
def brToNewline (l : List Char) : List Char := brToNewlineF l.length l

/-- Embedding of strip_html_tags from csv_to_race_page_html lines 18-22:
br tags become newlines, remaining tags are dropped, and only then are
entities unescaped and the ends stripped. -/
def strip_html_tags (s : String) : String :=
  pyStrip (String.mk (pyUnescape (removeTags (brToNewline s.toList))))

/-! ## AthleteParser (src/mens_team/athlete_builder.py) -/

/-- A season-summary row of an athlete file: year, grade, season best time. -/
structure SeasonRec where
  year : String
  grade : String
  sr : String
deriving DecidableEq, Repr, Inhabited

/-- An individual race row of an athlete file. -/
structure RaceRow where
  grade : String
  meet : String
  url : String
  time : String
  place : String
deriving DecidableEq, Repr, Inhabited

/-- Embedding of find_header_index (athlete_builder lines 84-95): index of
the first row whose stripped cells, joined with commas and lowercased,
contain both substrings; empty rows are passed over.  The sentinel -1 of
the source is rendered as none. -/
def find_header_index (rows : List (List String)) : Option Nat :=
  rows.findIdx? (fun r =>
    !r.isEmpty &&
    (let joined := (List.intercalate [','] (r.map (fun c => trimList c.toList))).map Char.toLower
     containsSub "meet url".toList joined && containsSub "overall place".toList joined))

/-- The stripped Overall Place field of a data row. -/
def fOP (dr : DRow) : String := pyStrip (safe_get dr "Overall Place" "")

/-- The stripped Grade field of a data row. -/
def fGrade (dr : DRow) : String := pyStrip (safe_get dr "Grade" "")

/-- The stripped Time field of a data row. -/
def fTime (dr : DRow) : String := pyStrip (safe_get dr "Time" "")

/-- The stripped Meet field of a data row. -/
def fMeet (dr : DRow) : String := pyStrip (safe_get dr "Meet" "")

/-- The stripped Meet URL field of a data row. -/
def fURL (dr : DRow) : String := pyStrip (safe_get dr "Meet URL" "")

/-- The season-record condition of athlete_builder line 152: the Overall
Place field is all digits of length 4 and the Grade field is truthy. -/
def seasonCond (dr : DRow) : Bool :=
  pyIsDigit (fOP dr) && (fOP dr).length == 4 && fGrade dr != ""

/-- The season record built from a matching row (athlete_builder lines 153-157). -/
def seasonOf (dr : DRow) : SeasonRec := ⟨fOP dr, fGrade dr, fTime dr⟩

/-- The race row built from a matching row (athlete_builder lines 162-168);
an empty Meet URL falls back to the hash placeholder. -/
def raceOf (dr : DRow) : RaceRow :=
  ⟨fGrade dr, fMeet dr, if fURL dr = "" then "#" else fURL dr, fTime dr, fOP dr⟩

/-- One iteration of the classification loop of parse_athlete_csv lines
144-168: a 4-digit Overall Place with a nonempty Grade appends a season
record, otherwise a nonempty Meet appends a race row, otherwise the row is
dropped. -/
def classifyStep (acc : List SeasonRec × List RaceRow) (dr : DRow) :
    List SeasonRec × List RaceRow :=
  if seasonCond dr then (acc.1 ++ [seasonOf dr], acc.2)
  else if fMeet dr != "" then (acc.1, acc.2 ++ [raceOf dr])
  else acc

/-- The classification loop over every field-mapped data row. -/
def classifyRows (drs : List DRow) : List SeasonRec × List RaceRow :=
  drs.foldl classifyStep ([], [])

/-- Sort key of the season-record sort (athlete_builder line 176):
int(year) when the year is all digits, else -1. -/
def year_key (s : SeasonRec) : Int :=
  if pyIsDigit s.year then (pyToNat s.year : Int) else -1

instance : DecidableRel (fun a b : SeasonRec => year_key a ≤ year_key b) :=
  fun a b => Int.decLe _ _

instance : IsTotal SeasonRec (fun a b => year_key a ≤ year_key b) :=
  ⟨fun a b => le_total _ _⟩

instance : IsTrans SeasonRec (fun a b => year_key a ≤ year_key b) :=
  ⟨fun _ _ _ hab hbc => le_trans hab hbc⟩

/-- Embedding of athlete_builder lines 171-178: stable-sort by year key
ascending and take the grade of the last record, none when there are no
season records.  Python sorted is a stable sort, so it agrees with
insertion sort by a non-strict key comparison. -/
def mostRecentGrade (srs : List SeasonRec) : Option String :=
  ((List.insertionSort (fun a b => year_key a ≤ year_key b) srs).getLast?).map SeasonRec.grade

/-- Embedding of athlete_builder lines 180-184: when the most recent grade
is truthy, fill it into every race row with a blank grade. -/
def backfill (mrg : Option String) (races : List RaceRow) : List RaceRow :=
  match mrg with
  | none => races
  | some g =>
    if g = "" then races
    else races.map (fun r => if r.grade = "" then ⟨g, r.meet, r.url, r.time, r.place⟩ else r)

/-- The record produced by parse_athlete_csv. -/
structure Athlete where
  name : String
  athlete_id : String
  season_records : List SeasonRec
  races : List RaceRow
  most_recent_grade : Option String
deriving DecidableEq, Inhabited

/-- Embedding of parse_athlete_csv (athlete_builder lines 107-192) from the
already comma-split rows of the file. -/
def parse_athlete_csv (rows : List (List String)) : Except String Athlete :=
  let athlete_name := match rows.headD [] with | [] => "" | c :: _ => pyStrip c
  let athlete_id := match rows.getD 1 [] with | [] => "" | c :: _ => pyStrip c
  match find_header_index rows with
  | none => .error "Could not find athlete data header row"
  | some header_idx =>
    let header_keys := (rows.getD header_idx []).map pyStrip
    let data_rows := rows.drop (header_idx + 1)
    let dict_rows := (data_rows.filter (fun r => !rowBlank r)).map (mkDictRow header_keys)
    let sr := (classifyRows dict_rows).1
    let races0 := (classifyRows dict_rows).2
    let mrg := mostRecentGrade sr
    .ok ⟨athlete_name, athlete_id, sr, backfill mrg races0, mrg⟩

/-! ## MeetParser, dialect of src/meets/meet_builder.py -/

/-- The configured team name constant. -/
def SKYLINE_TEAM_NAME : String := "Ann Arbor Skyline"

/-- Embedding of place_key (meet_builder lines 147-149, identical in
home_builder lines 163-165): integer value of the stripped,
trailing-dot-stripped place, else the sentinel 999999. -/
def place_key (r : DRow) : Nat :=
  let p := rstripDots (pyStrip (safe_get r "Place" ""))
  if pyIsDigit p then pyToNat p else 999999

instance : DecidableRel (fun a b : DRow => place_key a ≤ place_key b) :=
  fun a b => Nat.decLe _ _

instance : IsTotal DRow (fun a b => place_key a ≤ place_key b) :=
  ⟨fun a b => le_total _ _⟩

instance : IsTrans DRow (fun a b => place_key a ≤ place_key b) :=
  ⟨fun _ _ _ hab hbc => le_trans hab hbc⟩

/-- Embedding of list.sort(key=place_key): Python list.sort is stable, so it
agrees with insertion sort by a non-strict key comparison. -/
def sortByPlace (l : List DRow) : List DRow :=
  List.insertionSort (fun a b => place_key a ≤ place_key b) l

/-- Embedding of the Skyline row filter of meet_builder lines 138-141
(identical in home_builder lines 154-157). -/
def skyline_filter (dicts : List DRow) : List DRow :=
  dicts.filter (fun r => pyStrip (safe_get r "Team" "") = SKYLINE_TEAM_NAME)

/-- The data computed per file by the top-level loop of meet_builder. -/
structure Meet1 where
  meet_name : String
  meet_date : String
  meet_link : String
  summary_text : String
  indiv_header : List String
  indiv_data : List (List String)
  indiv_dicts : List DRow
  skyline : List DRow
deriving DecidableEq, Inhabited

/-- Embedding of the per-file parsing portion of the top-level loop of
meet_builder lines 90-151, from the physical lines of one CSV file to
either the parsed data or the printed skip reason. -/
def parse_meet_builder (lines : List String) : Except String Meet1 :=
  if lines.length < 6 then .error "not enough lines to match expected format"
  else
    let meet_name := pyStrip (lines.getD 0 "")
    let meet_date := pyStrip (lines.getD 1 "")
    let meet_link := pyStrip (lines.getD 2 "")
    let summary_text := strip_html (pyStrip (lines.getD 3 ""))
    match lines.findIdx? (fun l => startsWithChars "Place,Team,Score".toList l.toList),
          lines.findIdx? (fun l => startsWithChars "Place,Grade,Name,".toList l.toList) with
    | some _, some indiv_idx =>
      let indiv_block := (lines.drop indiv_idx).filter (fun l => pyStrip l ≠ "")
      let indiv_rows := parse_csv_block indiv_block
      if indiv_rows.length < 2 then .error "no individual data rows found"
      else
        let indiv_header := indiv_rows.headD []
        let indiv_data := indiv_rows.tail
        let indiv_dicts := indiv_data.map (mkDictRow indiv_header)
        let sky := skyline_filter indiv_dicts
        let sky2 := if sky.isEmpty then sky else sortByPlace sky
        .ok ⟨meet_name, meet_date, meet_link, summary_text, indiv_header,
             indiv_data, indiv_dicts, sky2⟩
    | _, _ => .error "could not find required CSV headers"

/-! ## MeetParser, dialect of src/meets/csv_to_race_page_html.py -/

/-- A team-results row of the custom meet CSV. -/
structure TeamResultRow where
  place : String
  team : String
  score : String
deriving DecidableEq, Repr, Inhabited

/-- An individual-results row of the custom meet CSV. -/
structure IndivRow where
  place : String
  grade : String
  name : String
  athlete_link : String
  time : String
  team : String
  team_link : String
  profile_pic : String
deriving DecidableEq, Repr, Inhabited

/-- The record produced by parse_custom_meet_csv. -/
structure Meet2 where
  meet_name : String
  meet_date : String
  meet_url : String
  summary_text : String
  team_results : List TeamResultRow
  individual_results : List IndivRow
  meet_id : Option String
deriving DecidableEq, Inhabited

/-- Embedding of re.search for the pattern slash-meet-slash followed by one
or more digits: scan for the first position where the whole pattern
matches and return the digit group. -/
def meetIdScan : List Char → Option String
  | [] => none
  | c :: rest =>
    if startsWithChars "/meet/".toList (c :: rest) then
      let ds := ((c :: rest).drop 6).takeWhile Char.isDigit
      if ds.isEmpty then meetIdScan rest else some (String.mk ds)
    else meetIdScan rest

/-- Embedding of extract_meet_id (csv_to_race_page_html lines 25-28). -/
def extract_meet_id (url : String) : Option String := meetIdScan url.toList

/-- Python indexing row[0], raising IndexError on an empty row. -/
def cell0 (r : List String) : Except String String :=
  match r with
  | [] => .error "IndexError: list index out of range"
  | c :: _ => .ok c

/-- Embedding of the summary quote-stripping of parse_custom_meet_csv lines
67-71. -/
def stripOuterQuote (s : String) : String :=
  if (startsWithChars ['"'] s.toList && startsWithChars ['"'] s.toList.reverse) ||
     (startsWithChars ['\''] s.toList && startsWithChars ['\''] s.toList.reverse)
  then String.mk (s.toList.drop 1).dropLast
  else s

/-- Embedding of the team-results while loop of parse_custom_meet_csv lines
75-86 on the rows from index 4: returns the collected rows and how many
input rows were consumed (the blank terminator included). -/
def team_scan : List (List String) → List TeamResultRow × Nat
  | [] => ([], 0)
  | row :: rest =>
    if rowBlank row then ([], 1)
    else
      let keep :=
        if 3 ≤ row.length ∧ pyStrip (row.getD 0 "") ≠ "Place"
        then [(⟨pyStrip (row.getD 0 ""), pyStrip (row.getD 1 ""), pyStrip (row.getD 2 "")⟩ : TeamResultRow)]
        else []
      let pair := team_scan rest
      (keep ++ pair.1, pair.2 + 1)

/-- Field extraction from an individual-results row of at least 8 cells
(parse_custom_meet_csv lines 100-111). -/
def mkIndivRow (row : List String) : IndivRow :=
  ⟨pyStrip (row.getD 0 ""), pyStrip (row.getD 1 ""), pyStrip (row.getD 2 ""),
   pyStrip (row.getD 3 ""), pyStrip (row.getD 4 ""), pyStrip (row.getD 5 ""),
   pyStrip (row.getD 6 ""), pyStrip (row.getD 7 "")⟩

/-- Embedding of the individual-results loop of parse_custom_meet_csv lines
93-111: blank rows and rows with fewer than 8 cells are passed over
silently, every other row is field-extracted. -/
def collectIndiv : List (List String) → List IndivRow
  | [] => []
  | row :: rest =>
    if rowBlank row then collectIndiv rest
    else if row.length < 8 then collectIndiv rest
    else mkIndivRow row :: collectIndiv rest

/-- Embedding of parse_custom_meet_csv (csv_to_race_page_html lines 44-121)
from the csv-split rows of the file. -/
def parse_custom_meet_csv (rows : List (List String)) : Except String Meet2 :=
  if rows.length < 5 then .error "CSV file must have at least 5 rows."
  else do
    let c0 ← cell0 (rows.getD 0 [])
    let c1 ← cell0 (rows.getD 1 [])
    let c2 ← cell0 (rows.getD 2 [])
    let c3 ← cell0 (rows.getD 3 [])
    let meet_url := pyStrip c2
    let summary_text := strip_html_tags (stripOuterQuote (pyStrip c3))
    let pair := team_scan (rows.drop 4)
    let rest := rows.drop (4 + pair.2)
    let indivPart :=
      match rest with
      | r :: rest2 =>
        if 8 ≤ r.length ∧ pyStrip (r.getD 0 "") = "Place" then rest2 else rest
      | [] => []
    .ok ⟨pyStrip c0, pyStrip c1, meet_url, summary_text, pair.1,
         collectIndiv indivPart, extract_meet_id meet_url⟩

/-- Embedding of the Skyline filter of build_race_page_html line 157:
trimmed, lowercased equality. -/
def skyline_filter_custom (irs : List IndivRow) : List IndivRow :=
  irs.filter (fun r => pyLower (pyStrip r.team) = "ann arbor skyline")

/-- Embedding of build_race_page_html line 158: the rows actually rendered,
falling back to every individual result when no Skyline row matched. -/
def runners_of (m : Meet2) : List IndivRow :=
  let sky := skyline_filter_custom m.individual_results
  if sky.isEmpty then m.individual_results else sky

/-! ## Claim-side view functions (written from the words of the claims) -/

/-- Claim-side season rule: a row is a season record exactly when the
Overall Place field is exactly 4 digits and the Grade field is non-empty,
yielding year, grade and season best time. -/
def seasonView (dr : DRow) : Option SeasonRec :=
  if seasonCond dr then some (seasonOf dr) else none

/-- Claim-side race rule: otherwise, the row is a race exactly when the
Meet field is non-empty, with the hash fallback for an empty Meet URL. -/
def raceView (dr : DRow) : Option RaceRow :=
  if seasonCond dr then none
  else if fMeet dr != "" then some (raceOf dr) else none

/-! ## Helper lemmas -/

/-- The classification loop, from any accumulator, appends exactly the rows
selected by the two mutually exclusive rules, in input order. -/
theorem classify_foldl (drs : List DRow) : ∀ s r,
    drs.foldl classifyStep (s, r) =
      (s ++ drs.filterMap seasonView, r ++ drs.filterMap raceView) := by
  induction drs with
  | nil => intro s r; simp
  | cons d ds ih =>
    intro s r
    simp only [List.foldl_cons, List.filterMap_cons, classifyStep, seasonView, raceView]
    by_cases h1 : seasonCond d = true
    · simp only [if_pos h1, ih]
      simp
    · simp only [if_neg h1]
      by_cases h2 : (fMeet d != "") = true
      · simp only [if_pos h2, ih]
        simp
      · simp only [if_neg h2, ih]

/-- The two classification lists are the rule-wise selections of the input. -/
theorem classifyRows_eq (drs : List DRow) :
    classifyRows drs = (drs.filterMap seasonView, drs.filterMap raceView) := by
  simpa using classify_foldl drs [] []

/-- Every season record produced by classification has a nonempty grade. -/
theorem classify_grade_ne (drs : List DRow) :
    ∀ s ∈ (classifyRows drs).1, s.grade ≠ "" := by
  rw [classifyRows_eq]
  intro s hs
  simp only [List.mem_filterMap] at hs
  obtain ⟨d, _, hd⟩ := hs
  unfold seasonView at hd
  by_cases hc : seasonCond d = true
  · rw [if_pos hc] at hd
    injection hd with hd
    subst hd
    unfold seasonCond at hc
    simp only [Bool.and_eq_true, bne_iff_ne] at hc
    exact hc.2
  · rw [if_neg hc] at hd
    exact absurd hd (by simp)

/-- Filtering commutes with reversal. -/
theorem filter_reverse_eq {α : Type} (p : α → Bool) (l : List α) :
    l.reverse.filter p = (l.filter p).reverse := by
  induction l with
  | nil => simp
  | cons c cs ih =>
    simp only [List.reverse_cons, List.filter_append, ih, List.filter_cons]
    by_cases hp : p c = true <;> simp [hp]

/-- A whitespace char is not kept by the digits-colon-dot filter. -/
theorem ws_not_time {c : Char} (h : c.isWhitespace = true) : isTimeChar c = false := by
  have h2 : ((c = ' ' ∨ c = '\t') ∨ c = '\r') ∨ c = '\n' := by
    simpa [Char.isWhitespace, Bool.or_eq_true, decide_eq_true_eq, beq_iff_eq] using h
  rcases h2 with ((h2 | h2) | h2) | h2 <;> subst h2 <;> decide

/-- Dropping a whitespace prefix does not change the kept time chars. -/
theorem keep_dropWhile_ws (l : List Char) :
    keepTimeChars (l.dropWhile Char.isWhitespace) = keepTimeChars l := by
  induction l with
  | nil => rfl
  | cons c cs ih =>
    by_cases hc : c.isWhitespace = true
    · rw [List.dropWhile_cons_of_pos hc]
      rw [ih]
      unfold keepTimeChars
      rw [List.filter_cons_of_neg (by simp [ws_not_time hc])]
    · rw [List.dropWhile_cons_of_neg (by simp [hc])]

/-- Stripping the ends does not change the kept time chars. -/
theorem keep_trim (l : List Char) :
    keepTimeChars (trimList l) = keepTimeChars l := by
  unfold trimList keepTimeChars
  rw [show ∀ m : List Char, m.reverse.filter isTimeChar = (m.filter isTimeChar).reverse
        from fun m => filter_reverse_eq isTimeChar m]
  rw [show (((l.dropWhile Char.isWhitespace).reverse.dropWhile Char.isWhitespace)).filter isTimeChar
        = ((l.dropWhile Char.isWhitespace).reverse).filter isTimeChar
        from keep_dropWhile_ws _]
  rw [filter_reverse_eq]
  rw [List.reverse_reverse]
  exact keep_dropWhile_ws l

/-- A char opening a PR or SR annotation is not kept by the filter. -/
theorem ps_not_time {c : Char} (h : isPS c = true) : isTimeChar c = false := by
  simp only [isPS, Bool.or_eq_true, beq_iff_eq] at h
  rcases h with ((h | h) | h) | h <;> subst h <;> decide

/-- A char closing an annotation is not kept by the filter. -/
theorem r_not_time {c : Char} (h : isR c = true) : isTimeChar c = false := by
  simp only [isR, Bool.or_eq_true, beq_iff_eq] at h
  rcases h with h | h <;> subst h <;> decide

/-- Removing the annotation tokens does not change the kept time chars:
the substitution only deletes letters and stars, all of which the
digits-colon-dot filter deletes anyway. -/
theorem keep_stripAnn (l : List Char) :
    keepTimeChars (stripAnn l) = keepTimeChars l := by
  induction l using stripAnn.induct with
  | case1 => rfl
  | case2 c hc =>
    unfold stripAnn
    rw [if_pos hc]
    have hc2 : c = '*' := by simpa [beq_iff_eq] using hc
    subst hc2
    rfl
  | case3 c hc =>
    unfold stripAnn
    rw [if_neg hc]
  | case4 c c2 rest hc ih =>
    have hc2 : c = '*' := by simpa [beq_iff_eq] using hc
    subst hc2
    have hs : stripAnn ('*' :: c2 :: rest) = stripAnn (c2 :: rest) := by
      rw [stripAnn]
      simp
    rw [hs, ih]
    unfold keepTimeChars
    exact (List.filter_cons_of_neg (show ¬isTimeChar '*' = true by decide)).symm
  | case5 c c2 rest hc hpr ih =>
    have hs : stripAnn (c :: c2 :: rest) = stripAnn rest := by
      rw [stripAnn]
      rw [if_neg (by simpa using hc), if_pos hpr]
    rw [hs, ih]
    obtain ⟨hp, hr⟩ : isPS c = true ∧ isR c2 = true := by simpa using hpr
    unfold keepTimeChars
    rw [List.filter_cons_of_neg (show ¬isTimeChar c = true by simp [ps_not_time hp])]
    rw [List.filter_cons_of_neg (show ¬isTimeChar c2 = true by simp [r_not_time hr])]
  | case6 c c2 rest hc hpr ih =>
    have hs : stripAnn (c :: c2 :: rest) = c :: stripAnn (c2 :: rest) := by
      rw [stripAnn]
      rw [if_neg (by simpa using hc), if_neg (by simpa using hpr)]
    rw [hs]
    unfold keepTimeChars at ih ⊢
    by_cases ht : isTimeChar c = true
    · rw [List.filter_cons_of_pos ht, List.filter_cons_of_pos ht]
      exact congrArg _ ih
    · rw [List.filter_cons_of_neg (show ¬isTimeChar c = true by simp [ht]),
          List.filter_cons_of_neg (show ¬isTimeChar c = true by simp [ht])]
      exact ih

/-- A list free of the separator splits into a single segment. -/
theorem splitOnChar_of_not_contains (sep : Char) (l : List Char)
    (h : containsSub [sep] l = false) : splitOnChar sep l = [l] := by
  induction l with
  | nil => rfl
  | cons c rest ih =>
    unfold containsSub at h
    simp only [Bool.or_eq_false_iff] at h
    have hc : ¬c = sep := by
      intro he
      subst he
      simp [startsWithChars] at h
    unfold splitOnChar
    rw [if_neg hc, ih h.2]
    rfl

/-- The containment precheck of the source is subsumed by the two-part
split: both tails agree on every string. -/
theorem pts_core_eq_tts_core (s : String) : pts_core s = tts_core s := by
  unfold pts_core tts_core
  by_cases hc : pyContains s ":" = false
  · rw [if_pos hc]
    unfold pyContains at hc
    rw [show (":".toList) = [':'] from rfl] at hc
    rw [splitOnChar_of_not_contains ':' s.toList hc]
  · rw [if_neg hc]

/-- The code path and the claim-side path compute the same function: the
interleaved strips remove only whitespace, the annotation removal removes
only letters and stars, and the character filter removes all of those
anyway. -/
theorem parse_time_eq_claim (t : String) :
    parse_time_to_seconds t = timeToSeconds_claim t := by
  unfold parse_time_to_seconds timeToSeconds_claim
  by_cases ht : t = ""
  · subst ht
    rw [if_pos rfl]
    decide
  · rw [if_neg ht, pts_core_eq_tts_core]
    have hkey : keepTimeChars (trimList (stripAnn (trimList t.toList))) =
        keepTimeChars (stripAnn t.toList) := by
      rw [keep_trim, keep_stripAnn, keep_trim, keep_stripAnn]
    rw [hkey]

/-- The two teen-window rules assign the same suffix to every number:
the numbers where the windows differ, 10 and 14 through 20 mod 100, end
in a digit other than 1, 2 or 3, so the last-digit rule already says th. -/
theorem suffix1020_eq_suffix1113 (n : Nat) : suffix1020 n = suffix1113 n := by
  unfold suffix1020 suffix1113
  rcases Nat.lt_or_ge (n % 100) 10 with h | h
  · have h1 : ¬(10 ≤ n % 100 ∧ n % 100 ≤ 20) := by omega
    have h2 : ¬(11 ≤ n % 100 ∧ n % 100 ≤ 13) := by omega
    rw [if_neg h1, if_neg h2]
  · by_cases h2 : 11 ≤ n % 100 ∧ n % 100 ≤ 13
    · have h1 : 10 ≤ n % 100 ∧ n % 100 ≤ 20 := by omega
      rw [if_pos h1, if_pos h2]
    · by_cases h1 : 10 ≤ n % 100 ∧ n % 100 ≤ 20
      · have hm : n % 10 = n % 100 % 10 := (Nat.mod_mod_of_dvd n (by omega)).symm
        have hd : n % 100 % 10 ≠ 1 ∧ n % 100 % 10 ≠ 2 ∧ n % 100 % 10 ≠ 3 := by omega
        rw [if_pos h1, if_neg h2, hm]
        unfold digitSuffix
        rw [if_neg hd.1, if_neg hd.2.1, if_neg hd.2.2]
      · rw [if_neg h1, if_neg h2]

/-- Inserting a row whose key is k puts it in front of every other row with
key k: the rows passed over all have strictly smaller keys. -/
theorem place_filter_orderedInsert_eq (a : DRow) (k : Nat) (ha : place_key a = k)
    (m : List DRow) :
    (List.orderedInsert (fun x y => place_key x ≤ place_key y) a m).filter
        (fun x => place_key x == k) =
      a :: m.filter (fun x => place_key x == k) := by
  induction m with
  | nil => simp [List.orderedInsert, ha]
  | cons b bs ih =>
    simp only [List.orderedInsert]
    by_cases hle : place_key a ≤ place_key b
    · rw [if_pos hle]
      rw [@List.filter_cons_of_pos DRow (fun x => place_key x == k) a (b :: bs) (by simp [ha])]
    · rw [if_neg hle]
      have hb : ¬(place_key b == k) = true := by simp; omega
      rw [@List.filter_cons_of_neg DRow (fun x => place_key x == k) b
            (List.orderedInsert (fun x y => place_key x ≤ place_key y) a bs) hb,
          ih,
          @List.filter_cons_of_neg DRow (fun x => place_key x == k) b bs hb]

/-- Inserting a row whose key is not k leaves the key-k rows untouched. -/
theorem place_filter_orderedInsert_ne (a : DRow) (k : Nat) (ha : place_key a ≠ k)
    (m : List DRow) :
    (List.orderedInsert (fun x y => place_key x ≤ place_key y) a m).filter
        (fun x => place_key x == k) =
      m.filter (fun x => place_key x == k) := by
  induction m with
  | nil => simp [List.orderedInsert, ha]
  | cons b bs ih =>
    simp only [List.orderedInsert]
    by_cases hle : place_key a ≤ place_key b
    · rw [if_pos hle]
      rw [@List.filter_cons_of_neg DRow (fun x => place_key x == k) a (b :: bs) (by simp [ha])]
    · rw [if_neg hle]
      by_cases hb : (place_key b == k) = true
      · rw [@List.filter_cons_of_pos DRow (fun x => place_key x == k) b
              (List.orderedInsert (fun x y => place_key x ≤ place_key y) a bs) hb,
            ih,
            @List.filter_cons_of_pos DRow (fun x => place_key x == k) b bs hb]
      · rw [@List.filter_cons_of_neg DRow (fun x => place_key x == k) b
              (List.orderedInsert (fun x y => place_key x ≤ place_key y) a bs) hb,
            ih,
            @List.filter_cons_of_neg DRow (fun x => place_key x == k) b bs hb]

/-- Stability of the place sort: for every key value, the rows carrying that
key come out in their original relative order. -/
theorem sortByPlace_stable (l : List DRow) (k : Nat) :
    (sortByPlace l).filter (fun x => place_key x == k) =
      l.filter (fun x => place_key x == k) := by
  unfold sortByPlace
  induction l with
  | nil => rfl
  | cons a l ih =>
    simp only [List.insertionSort]
    by_cases ha : place_key a = k
    · rw [place_filter_orderedInsert_eq a k ha, ih,
          @List.filter_cons_of_pos DRow (fun x => place_key x == k) a l (by simp [ha])]
    · rw [place_filter_orderedInsert_ne a k ha, ih,
          @List.filter_cons_of_neg DRow (fun x => place_key x == k) a l (by simp [ha])]

/-- The place sort is a permutation of its input. -/
theorem sortByPlace_perm (l : List DRow) : (sortByPlace l).Perm l :=
  List.perm_insertionSort _ l

/-- The place sort is ascending in the key. -/
theorem sortByPlace_sorted (l : List DRow) :
    (sortByPlace l).Pairwise (fun a b => place_key a ≤ place_key b) :=
  List.sorted_insertionSort _ l

/-- The last element of the stable ascending year sort exists, is drawn from
the input, and carries a maximal year key. -/
theorem insertionSort_year_getLast (srs : List SeasonRec) (h : srs ≠ []) :
    ∃ x, (List.insertionSort (fun a b => year_key a ≤ year_key b) srs).getLast? = some x ∧
      x ∈ srs ∧ ∀ s ∈ srs, year_key s ≤ year_key x := by
  have hperm := List.perm_insertionSort (fun a b : SeasonRec => year_key a ≤ year_key b) srs
  have hsorted := List.sorted_insertionSort (fun a b : SeasonRec => year_key a ≤ year_key b) srs
  have htne : List.insertionSort (fun a b : SeasonRec => year_key a ≤ year_key b) srs ≠ [] := by
    intro h0
    apply h
    have h1 : srs.Perm [] := by rw [← h0]; exact hperm.symm
    exact h1.eq_nil
  refine ⟨_, List.getLast?_eq_getLast_of_ne_nil htne, ?_, ?_⟩
  · exact hperm.mem_iff.mp (List.getLast_mem htne)
  · intro s hs
    have hst : s ∈ List.insertionSort (fun a b : SeasonRec => year_key a ≤ year_key b) srs :=
      hperm.mem_iff.mpr hs
    have hdecomp := List.dropLast_append_getLast htne
    rw [← hdecomp] at hst
    rcases List.mem_append.mp hst with hmem | hmem
    · have hp : List.Pairwise (fun a b : SeasonRec => year_key a ≤ year_key b)
          ((List.insertionSort (fun a b : SeasonRec => year_key a ≤ year_key b) srs).dropLast ++
            [(List.insertionSort (fun a b : SeasonRec => year_key a ≤ year_key b) srs).getLast htne]) := by
        rw [hdecomp]; exact hsorted
      exact (List.pairwise_append.mp hp).2.2 s hmem _ (by simp)
    · have : s = (List.insertionSort (fun a b : SeasonRec => year_key a ≤ year_key b) srs).getLast htne := by
        simpa using hmem
      rw [this]

/-- Specification of mostRecentGrade on a nonempty season list: it is the
grade of a season record of maximal year key. -/
theorem mostRecentGrade_spec (srs : List SeasonRec) (h : srs ≠ []) :
    ∃ rec, rec ∈ srs ∧ mostRecentGrade srs = some rec.grade ∧
      ∀ s ∈ srs, year_key s ≤ year_key rec := by
  obtain ⟨x, hx, hmem, hmax⟩ := insertionSort_year_getLast srs h
  refine ⟨x, hmem, ?_, hmax⟩
  unfold mostRecentGrade
  rw [hx]
  rfl

/-! ## Concrete demonstration inputs -/

/-- A well-formed meet file in the meet_builder dialect with one data row. -/
def meet1Lines : List String :=
  ["Fall Invitational", "Tue Sep 02 2025", "http://results", "<p>Good race</p>",
   "Place,Team,Score", "1,Ann Arbor Skyline,50", "",
   "Place,Grade,Name,Athlete Link,Time,Team,Team Link,Profile Pic",
   "1,10,Bob,link,17:00,Ann Arbor Skyline,tl,bob.jpg"]

/-- The record parsed from meet1Lines. -/
def meet1Parsed : Meet1 :=
  match parse_meet_builder meet1Lines with
  | .ok m => m
  | .error _ => default

/-- A custom-dialect meet file whose individual-results header is present
but is followed by no data rows at all. -/
def meet2NoData : List (List String) :=
  [["M"], ["D"], ["U"], ["S"],
   ["Place", "Team", "Score"], ["1", "A", "10"], [],
   ["Place", "Grade", "Name", "Athlete Link", "Time", "Team", "Team Link", "Profile Pic"]]

/-- The record parsed from meet2NoData. -/
def meet2NoDataParsed : Meet2 :=
  match parse_custom_meet_csv meet2NoData with
  | .ok m => m
  | .error _ => default

/-- A custom-dialect meet file whose only individual data row has just 3 of
the 8 expected cells. -/
def shortRowRows : List (List String) :=
  [["M"], ["D"], ["U"], ["S"], [],
   ["Place", "Grade", "Name", "Athlete Link", "Time", "Team", "Team Link", "Profile Pic"],
   ["1", "9", "Bob"]]

/-- The record parsed from shortRowRows. -/
def shortRowParsed : Meet2 :=
  match parse_custom_meet_csv shortRowRows with
  | .ok m => m
  | .error _ => default

/-- A meet_builder-dialect file whose only data row belongs to another
team, so the Skyline filter matches nothing. -/
def meetNoMatchLines : List String :=
  ["M", "D", "U", "S", "Place,Team,Score", "Place,Grade,Name,Time,Team",
   "1,10,Bob,17:00,Other Team"]

/-- The record parsed from meetNoMatchLines. -/
def meetNoMatchParsed : Meet1 :=
  match parse_meet_builder meetNoMatchLines with
  | .ok m => m
  | .error _ => default

/-- An athlete file with two season-summary rows and two race rows whose
grades are blank. -/
def athleteRows : List (List String) :=
  [["John Doe"], ["12345"], [],
   ["Name", "Overall Place", "Grade", "Time", "Date", "Meet", "Meet URL", "Comments", "Photo"],
   ["John", "2022", "11", "17:30.2"],
   ["John", "2023", "12", "16:34.8PR"],
   ["John", "5", "", "17:10", "", "Meet A", "http://a"],
   ["John", "7.", "", "17:20", "", "Meet B"]]

/-- A one-row season list used to instantiate the back-fill theorem. -/
def c3drs : List DRow := [[("Overall Place", "2023"), ("Grade", "12"), ("Time", "17:00")]]

/-! ## Claim theorems -/

/-- C1: every non-blank data row after the header is classified by two
mutually exclusive rules in order: exactly-4-digit Overall Place with
nonempty Grade appends a season record (year, grade, season best time) and
never a race; otherwise a nonempty Meet appends a race row whose url falls
back to the hash placeholder; otherwise the row is dropped.  A row with
Overall Place 2023 and Grade 11 is a season record, a row with Meet
Invitational, Overall Place 2023 and empty Grade is a race. -/
theorem C1_thm :
    (∀ drs : List DRow,
        classifyRows drs = (drs.filterMap seasonView, drs.filterMap raceView)) ∧
    classifyRows [[("Overall Place", "2023"), ("Grade", "11"), ("Time", "17:00")]] =
      ([⟨"2023", "11", "17:00"⟩], []) ∧
    classifyRows [[("Meet", "Invitational"), ("Overall Place", "2023")]] =
      ([], [⟨"", "Invitational", "#", "", "2023"⟩]) :=
  ⟨classifyRows_eq, by decide, by decide⟩

/-- Witness for C1 at a concrete one-row input. -/
theorem C1_witness :
    classifyRows [[("Meet", "X")]] =
      ([[("Meet", "X")]].filterMap seasonView, [[("Meet", "X")]].filterMap raceView) :=
  C1_thm.1 [[("Meet", "X")]]

/-- Every successful meet_builder parse carries at least one individual
data row, because a block with fewer than two parsed rows is rejected with
the no-data-rows diagnostic. -/
theorem meet1_ok_data_len (lines : List String) (m : Meet1)
    (h : parse_meet_builder lines = .ok m) : 1 ≤ m.indiv_data.length := by
  unfold parse_meet_builder at h
  split at h
  · exact absurd h (by simp)
  · split at h
    case h_2 => exact absurd h (by simp)
    case h_1 tidx iidx =>
      dsimp only at h
      split at h
      next hlt => exact absurd h (by simp)
      next hlt =>
        injection h with h
        rw [← h]
        simp only [List.length_tail]
        omega

/-- C2 amended: in the meet_builder dialect a parse that succeeds always
carries at least one individual data row (zero data rows are rejected as
no-data-rows), while the custom dialect imposes no such check and can
return a record with an empty individual-results list. -/
theorem C2_thm :
    (∀ lines m, parse_meet_builder lines = .ok m → 1 ≤ m.indiv_data.length) ∧
    (∃ rows m2, parse_custom_meet_csv rows = .ok m2 ∧ m2.individual_results = []) :=
  ⟨meet1_ok_data_len, ⟨meet2NoData, meet2NoDataParsed, rfl, rfl⟩⟩

/-- C2 counterexample: the custom dialect parses a file that has the
individual-results header but zero data rows into a successful record with
an empty individual-results list, instead of failing. -/
theorem C2_counterexample :
    parse_custom_meet_csv meet2NoData = .ok meet2NoDataParsed ∧
    meet2NoDataParsed.individual_results = [] := ⟨rfl, rfl⟩

/-- Witness for C2 at a concrete successful meet_builder parse. -/
theorem C2_witness : 1 ≤ meet1Parsed.indiv_data.length :=
  C2_thm.1 meet1Lines meet1Parsed (by rfl)

/-- C3: with no season records the most recent grade is absent and
back-filling changes nothing; with season records the most recent grade is
the (nonempty) grade of a season record of maximal year, and back-filling
rewrites exactly the blank race grades to it while leaving nonblank grades
unchanged.  On the demonstration athlete file whose races all have blank
grades and whose latest season grade is 12, every race grade becomes 12. -/
theorem C3_thm :
    (∀ drs : List DRow,
      ((classifyRows drs).1 = [] →
        mostRecentGrade (classifyRows drs).1 = none ∧
        backfill (mostRecentGrade (classifyRows drs).1) (classifyRows drs).2 =
          (classifyRows drs).2) ∧
      ((classifyRows drs).1 ≠ [] →
        ∃ rec, rec ∈ (classifyRows drs).1 ∧ rec.grade ≠ "" ∧
          mostRecentGrade (classifyRows drs).1 = some rec.grade ∧
          (∀ s ∈ (classifyRows drs).1, year_key s ≤ year_key rec) ∧
          backfill (mostRecentGrade (classifyRows drs).1) (classifyRows drs).2 =
            (classifyRows drs).2.map
              (fun r => if r.grade = "" then RaceRow.mk rec.grade r.meet r.url r.time r.place
                        else r))) ∧
    (parse_athlete_csv athleteRows).toOption.map Athlete.most_recent_grade =
      some (some "12") ∧
    (parse_athlete_csv athleteRows).toOption.map Athlete.races =
      some [⟨"12", "Meet A", "http://a", "17:10", "5"⟩,
            ⟨"12", "Meet B", "#", "17:20", "7."⟩] := by
  refine ⟨?_, by decide, by decide⟩
  intro drs
  constructor
  · intro h
    have hm : mostRecentGrade (classifyRows drs).1 = none := by rw [h]; rfl
    exact ⟨hm, by rw [hm]; rfl⟩
  · intro h
    obtain ⟨rec, hmem, heq, hmax⟩ := mostRecentGrade_spec _ h
    have hg : rec.grade ≠ "" := classify_grade_ne drs rec hmem
    refine ⟨rec, hmem, hg, heq, hmax, ?_⟩
    rw [heq]
    simp only [backfill]
    rw [if_neg hg]

/-- Witness for C3 at a concrete one-season-row input. -/
theorem C3_witness :
    ∃ rec, rec ∈ (classifyRows c3drs).1 ∧ rec.grade ≠ "" ∧
      mostRecentGrade (classifyRows c3drs).1 = some rec.grade ∧
      (∀ s ∈ (classifyRows c3drs).1, year_key s ≤ year_key rec) ∧
      backfill (mostRecentGrade (classifyRows c3drs).1) (classifyRows c3drs).2 =
        (classifyRows c3drs).2.map
          (fun r => if r.grade = "" then RaceRow.mk rec.grade r.meet r.url r.time r.place
                    else r) :=
  (C3_thm.1 c3drs).2 (by decide)

/-- C4: parse_time_to_seconds computes exactly the claimed function
(annotation tokens removed case-insensitively, everything except digits,
colon and period discarded, exactly two colon-separated parts with integer
minutes and possibly fractional seconds, minutes*60 + seconds), and
matches the four spec test vectors. -/
theorem C4_thm :
    (∀ t, parse_time_to_seconds t = timeToSeconds_claim t) ∧
    parse_time_to_seconds "16:34.8PR" = some (4974 / 5 : ℚ) ∧
    parse_time_to_seconds "21:08.4" = some (6342 / 5 : ℚ) ∧
    parse_time_to_seconds "bogus" = none ∧
    parse_time_to_seconds "" = none := by
  refine ⟨parse_time_eq_claim, ?_, ?_, by decide, rfl⟩
  · have h : parse_time_to_seconds "16:34.8PR" =
        some ((natOfDigits ['1', '6'] : ℚ) * 60 +
          ((natOfDigits ['3', '4'] : ℚ) + (natOfDigits ['8'] : ℚ) / 10 ^ (1 : ℕ))) := by rfl
    rw [h, show natOfDigits ['1', '6'] = 16 from by decide,
        show natOfDigits ['3', '4'] = 34 from by decide,
        show natOfDigits ['8'] = 8 from by decide]
    norm_num
  · have h : parse_time_to_seconds "21:08.4" =
        some ((natOfDigits ['2', '1'] : ℚ) * 60 +
          ((natOfDigits ['0', '8'] : ℚ) + (natOfDigits ['4'] : ℚ) / 10 ^ (1 : ℕ))) := by rfl
    rw [h, show natOfDigits ['2', '1'] = 21 from by decide,
        show natOfDigits ['0', '8'] = 8 from by decide,
        show natOfDigits ['4'] = 4 from by decide]
    norm_num

/-- Witness for C4 at a concrete annotated time string. -/
theorem C4_witness : parse_time_to_seconds "17:55.6 SR" = timeToSeconds_claim "17:55.6 SR" :=
  C4_thm.1 "17:55.6 SR"

/-! ## Claim theorems, continued -/

/-- Place field rows used by the sort examples. -/
def rowP3 : DRow := [("Place", "3")]

/-- Place field row with a trailing dot. -/
def rowP1 : DRow := [("Place", "1.")]

/-- Place field row with a non-numeric place. -/
def rowPabc : DRow := [("Place", "abc")]

/-- Place field row with place 2. -/
def rowP2 : DRow := [("Place", "2")]

/-- Place field row with a numeric place above the sentinel. -/
def rowBig : DRow := [("Place", "1000000")]

/-- C5 amended: the place sort is a stable ascending permutation in the
place key, non-numeric rows take the sentinel 999999 and therefore come
after every row whose numeric place is below the sentinel, and the
spec example sorts to 1, 2, 3, abc. -/
theorem C5_thm :
    (∀ l : List DRow,
      (sortByPlace l).Pairwise (fun a b => place_key a ≤ place_key b) ∧
      (sortByPlace l).Perm l ∧
      (∀ k, (sortByPlace l).filter (fun x => place_key x == k) =
        l.filter (fun x => place_key x == k)) ∧
      (sortByPlace l).Pairwise
        (fun a b => ¬(place_key a = 999999 ∧ place_key b < 999999))) ∧
    (sortByPlace [rowP3, rowP1, rowPabc, rowP2]).map (fun r => safe_get r "Place" "") =
      ["1.", "2", "3", "abc"] := by
  refine ⟨fun l => ⟨sortByPlace_sorted l, sortByPlace_perm l, sortByPlace_stable l, ?_⟩,
    by decide⟩
  exact (sortByPlace_sorted l).imp (fun hle hcon => by omega)

/-- C5 counterexample: a row whose numeric place is 1000000 sorts after the
non-numeric row abc, so a non-numeric row does not come after every
numeric row. -/
theorem C5_counterexample :
    sortByPlace [rowBig, rowPabc] = [rowPabc, rowBig] ∧
    pyIsDigit (rstripDots (pyStrip "1000000")) = true ∧
    pyIsDigit (rstripDots (pyStrip "abc")) = false := by
  refine ⟨by decide, by decide, by decide⟩

/-- Witness for C5 at a concrete one-row list. -/
theorem C5_witness : (sortByPlace [rowBig]).Perm [rowBig] :=
  (C5_thm.1 [rowBig]).2.1

/-- An individual-results row whose team field is upper-case. -/
def rowUpper : IndivRow :=
  ⟨"1", "10", "Bob", "bl", "17:00", "ANN ARBOR SKYLINE", "tl", "b.jpg"⟩

/-- C6 amended: the meet_builder dialect filters by trimmed case-sensitive
equality with the team constant and still succeeds with an empty filtered
set when nothing matches; the custom dialect filters by trimmed lowercased
equality and, when nothing matches, renders every individual result
instead. -/
theorem C6_thm :
    (∀ dicts : List DRow, ∀ r, r ∈ skyline_filter dicts ↔
        r ∈ dicts ∧ pyStrip (safe_get r "Team" "") = SKYLINE_TEAM_NAME) ∧
    (∀ irs : List IndivRow, ∀ r, r ∈ skyline_filter_custom irs ↔
        r ∈ irs ∧ pyLower (pyStrip r.team) = "ann arbor skyline") ∧
    (∀ m : Meet2, skyline_filter_custom m.individual_results = [] →
        runners_of m = m.individual_results) ∧
    parse_meet_builder meetNoMatchLines = .ok meetNoMatchParsed ∧
    meetNoMatchParsed.skyline = [] := by
  refine ⟨?_, ?_, ?_, rfl, rfl⟩
  · intro dicts r
    simp [skyline_filter, List.mem_filter]
  · intro irs r
    simp [skyline_filter_custom, List.mem_filter]
  · intro m h
    simp [runners_of, h]

/-- C6 counterexample: the custom dialect keeps a row whose team field is
upper-case, although its trimmed team field is not case-sensitively equal
to the team constant. -/
theorem C6_counterexample :
    skyline_filter_custom [rowUpper] = [rowUpper] ∧
    pyStrip rowUpper.team ≠ SKYLINE_TEAM_NAME := by
  refine ⟨by decide, by decide⟩

/-- Witness for C6 at the concrete zero-match custom record. -/
theorem C6_witness :
    runners_of meet2NoDataParsed = meet2NoDataParsed.individual_results :=
  C6_thm.2.2.1 meet2NoDataParsed (by decide)

/-- Every position of an all-empty replicate reads the empty string. -/
theorem replicate_getD (n i : Nat) (h : i < n) :
    (List.replicate n "").getD i "x" = "" := by
  induction n generalizing i with
  | zero => omega
  | succ n ih =>
    cases i with
    | zero => rfl
    | succ j =>
      simp only [List.replicate, List.getD_cons_succ]
      exact ih j (by omega)

/-- Positions past the original row of a right-padded row read the empty
string. -/
theorem append_replicate_getD (row : List String) (n i : Nat)
    (h1 : row.length ≤ i) (h2 : i < row.length + n) :
    (row ++ List.replicate n "").getD i "x" = "" := by
  induction row generalizing i with
  | nil =>
    simp only [List.nil_append]
    exact replicate_getD n i (by simpa using h2)
  | cons c cs ih =>
    cases i with
    | zero => simp at h1
    | succ j =>
      simp only [List.cons_append, List.getD_cons_succ]
      exact ih j (by simpa using h1) (by simp only [List.length_cons] at h2; omega)

/-- C7 amended: in the meet_builder dialect a short data row is right-padded
with empty strings to the header length before being zipped into the field
mapping, so each missing trailing field reads back as the empty string; in
the custom dialect a non-blank row with fewer than 8 cells is silently
skipped, never an error. -/
theorem C7_thm :
    (∀ header row : List String, row.length < header.length →
      (padRow header row).length = header.length ∧
      (∀ i, row.length ≤ i → i < header.length → (padRow header row).getD i "x" = "") ∧
      mkDictRow header row = List.zip header (padRow header row)) ∧
    (∀ rs : List (List String),
      collectIndiv rs =
        (rs.filter (fun row => !rowBlank row && 8 ≤ row.length)).map mkIndivRow) := by
  constructor
  · intro header row h
    refine ⟨?_, ?_, rfl⟩
    · unfold padRow
      rw [if_pos h]
      simp only [List.length_append, List.length_replicate]
      omega
    · intro i h1 h2
      unfold padRow
      rw [if_pos h]
      exact append_replicate_getD row _ i h1 (by omega)
  · intro rs
    induction rs with
    | nil => rfl
    | cons row rest ih =>
      unfold collectIndiv
      by_cases hb : rowBlank row = true
      · rw [if_pos hb, ih, List.filter_cons_of_neg (by simp [hb])]
      · rw [if_neg hb]
        by_cases hl : row.length < 8
        · rw [if_pos hl, ih, List.filter_cons_of_neg (by simp [hb]; omega)]
        · rw [if_neg hl, ih,
              List.filter_cons_of_pos (by simp [hb]; omega), List.map_cons]

/-- C7 counterexample: the custom dialect drops a present 3-cell data row
outright instead of padding it into a field mapping with empty trailing
fields. -/
theorem C7_counterexample :
    parse_custom_meet_csv shortRowRows = .ok shortRowParsed ∧
    (["1", "9", "Bob"] : List String) ∈ shortRowRows ∧
    shortRowParsed.individual_results = [] := ⟨rfl, by decide, rfl⟩

/-- Witness for C7 at a concrete short row. -/
theorem C7_witness : (padRow ["A", "B", "C"] ["x"]).getD 2 "x" = "" :=
  (C7_thm.1 ["A", "B", "C"] ["x"] (by decide)).2.1 2 (by decide) (by decide)

/-- C8: for 1 to 100 both ordinal implementations cited by the claim append
the teen-rule suffix (teens always th, otherwise by last digit), and the
fixed vectors abc, the empty string and 7. behave as specified. -/
theorem C8_thm :
    (∀ n : Fin 101, 1 ≤ n.1 →
      ordinal (Nat.repr n.1) = Nat.repr n.1 ++ suffix1020 n.1 ∧
      ordinal_athlete (Nat.repr n.1) = Nat.repr n.1 ++ suffix1020 n.1) ∧
    ordinal "abc" = "abc" ∧ ordinal_athlete "abc" = "abc" ∧
    ordinal "" = "" ∧ ordinal_athlete "" = "" ∧
    ordinal "7." = "7th" ∧ ordinal_athlete "7." = "7th" := by
  refine ⟨by decide, by decide, by decide, rfl, by decide, by decide, by decide⟩

/-- Witness for C8 at the number 7. -/
theorem C8_witness : ordinal (Nat.repr 7) = Nat.repr 7 ++ suffix1020 7 :=
  (C8_thm.1 ⟨7, by omega⟩ (by decide)).1

/-- C9 amended: the meet_builder and home_builder dialect unescapes
entities before stripping tags, so entity-encoded markup is removed, and
collapses whitespace runs; the custom dialect turns br tags into newlines,
strips tags, and unescapes entities only afterwards, stripping only the
ends. -/
theorem C9_thm :
    strip_html "&lt;b&gt;hi&lt;/b&gt;" = "hi" ∧
    strip_html "a   <b>big</b>\n\n win" = "a big win" ∧
    strip_html_tags "line1<br>line2" = "line1\nline2" ∧
    strip_html_tags "line1< BR />line2" = "line1\nline2" ∧
    strip_html_tags "  <p>x</p>  " = "x" ∧
    strip_html_tags "&amp;" = "&" := by
  refine ⟨by decide, by decide, by decide, by decide, by decide, by decide⟩

/-- C9 counterexample: the custom dialect strips tags before unescaping,
so entity-encoded markup survives it while the other dialect removes it. -/
theorem C9_counterexample :
    strip_html_tags "&lt;b&gt;hi&lt;/b&gt;" = "<b>hi</b>" ∧
    strip_html "&lt;b&gt;hi&lt;/b&gt;" = "hi" := by
  refine ⟨by decide, by decide⟩

/-- C10: on every input whose trimmed, trailing-dot-stripped form is a
nonempty digit string, the three ordinal implementations (teen windows
10..20 and 11..13) agree, because the numbers where the windows differ end
in a digit other than 1, 2 or 3. -/
theorem C10_thm (s : String)
    (h : pyIsDigit (rstripDots (pyStrip s)) = true) :
    ordinal s = ordinal_custom s ∧ ordinal_athlete s = ordinal_custom s := by
  by_cases hs : s = ""
  · rw [hs] at h
    exact absurd h (by decide)
  · constructor
    · simp [ordinal, ordinal_custom, hs, h, suffix1020_eq_suffix1113]
    · simp [ordinal_athlete, ordinal_custom, h, suffix1020_eq_suffix1113]

/-- Witness for C10 at the teen-window input 14 with a trailing dot. -/
theorem C10_witness :
    pyIsDigit (rstripDots (pyStrip "14.")) = true ∧ ordinal "14." = ordinal_custom "14." :=
  ⟨by decide, (C10_thm "14." (by decide)).1⟩

end XC
